import Mathlib

/-!
# Verification of the shenzhen-vm concurrency core

A shallow embedding of the Rust sources of `shenzhen-vm` (a simulation
environment mimicking SHENZHEN I/O): the XBus rendezvous protocol
(`src/xbus.rs`), the scheduler (`src/scheduler.rs`), and the peripheral
components (`src/components/{expander,memory,inputsource}.rs`).

Modelling conventions:
- `i32` values are modelled as `Int` (no arithmetic in the embedded code
  paths can overflow an `i32` except where noted).
- `HashMap` registries are modelled as association lists in hash-map
  iteration order; `iter().next()` is the head of the list, `insert` replaces
  an existing key in place or appends a fresh one.
- Trait objects (`dyn TSource`, `dyn TSink`) become function parameters:
  `can_read : sigma -> Bool`, `read : sigma -> Int * sigma` (interior
  mutability is explicit state passing), `write : kappa -> Int -> kappa`.
- Channel sends and thread operations become explicit effect values or
  returned lists; a blocking `Scheduler::sleep` is a `suspended` outcome
  carrying the posted sleep token.
-/

namespace ShenzhenVM

/-- `SleepToken` from scheduler.rs. XBuses are identified by a numeric id. -/
inductive SleepToken
| Time (t : Int)
| XBusSleep (bus : Nat)
| XBusRead (bus : Nat)
| XBusWrite (bus : Nat)
deriving DecidableEq

/-- `is_blocking` from scheduler.rs lines 27-32. -/
def is_blocking : SleepToken → Bool
| SleepToken.Time _ => false
| SleepToken.XBusSleep _ => false
| SleepToken.XBusRead _ => true
| SleepToken.XBusWrite _ => true

/-- The `Inner` state of an XBus (xbus.rs lines 28-34). The pending maps are
`HashMap`s keyed by controller name; they are modelled as association lists in
iteration order. A pending reader's `Arc<AtomicI32>` cell is modelled by its
current contents (a fresh cell holds 0). -/
structure Inner (σ κ : Type) where
  sources : List σ
  sinks : List κ
  pending_readers : List (String × Int)
  pending_writers : List (String × Int)
deriving DecidableEq

/-- Result of `XBus::read` (xbus.rs lines 68-97): a value taken from a pending
writer, a value read from a connected source (with the source's index and its
updated state), or suspension after registering as a pending reader (the
constructor carries the token posted to the scheduler). -/
inductive ReadOutcome (σ κ : Type)
| fromWriter (writer : String) (value : Int) (after : Inner σ κ)
| fromSource (index : Nat) (value : Int) (after : Inner σ κ)
| suspended (token : SleepToken) (after : Inner σ κ)
deriving DecidableEq

/-- The pending writer consumed by a read, if any. -/
def ReadOutcome.writerTaken {σ κ : Type} : ReadOutcome σ κ → Option (String × Int)
| ReadOutcome.fromWriter w v _ => some (w, v)
| _ => none

/-- Whether the read suspended its caller. -/
def ReadOutcome.suspends {σ κ : Type} : ReadOutcome σ κ → Bool
| ReadOutcome.suspended _ _ => true
| _ => false

/-- Result of `XBus::write` (xbus.rs lines 101-126): the value delivered into a
pending reader's cell, the value handed to a connected sink (index and updated
sink state), or suspension after registering as a pending writer. -/
inductive WriteOutcome (σ κ : Type)
| delivered (reader : String) (cellValue : Int) (after : Inner σ κ)
| toSink (index : Nat) (after : Inner σ κ)
| suspended (token : SleepToken) (after : Inner σ κ)
deriving DecidableEq

/-- The pending reader a write delivered to, if any. -/
def WriteOutcome.readerChosen {σ κ : Type} : WriteOutcome σ κ → Option String
| WriteOutcome.delivered r _ _ => some r
| _ => none

/-- The source-scanning loop of `XBus::read` (xbus.rs lines 83-87): return the
first source whose `can_read()` is true, together with its index, the value
`read()` produced, and the source list with that source's state updated. -/
def scanSources {σ : Type} (can_read_src : σ → Bool) (read_src : σ → Int × σ) :
    List σ → Option (Nat × Int × List σ)
| [] => none
| s :: rest =>
  if can_read_src s then
    let r := read_src s
    some (0, r.1, r.2 :: rest)
  else
    match scanSources can_read_src read_src rest with
    | none => none
    | some (i, v, rest2) => some (i + 1, v, s :: rest2)

/-- `XBus::read` (xbus.rs lines 68-97). `bus` is this bus's id (used in the
sleep token), `name` is `current_name()` of the calling controller. -/
def XBus.read {σ κ : Type} (can_read_src : σ → Bool) (read_src : σ → Int × σ)
    (bus : Nat) (name : String) (b : Inner σ κ) : ReadOutcome σ κ :=
  match b.pending_writers with
  | (key, value) :: rest =>
    ReadOutcome.fromWriter key value { b with pending_writers := rest }
  | [] =>
    match scanSources can_read_src read_src b.sources with
    | some (i, v, sources2) => ReadOutcome.fromSource i v { b with sources := sources2 }
    | none =>
      ReadOutcome.suspended (SleepToken.XBusRead bus)
        { b with pending_readers := b.pending_readers ++ [(name, 0)] }

/-- `XBus::write` (xbus.rs lines 101-126). -/
def XBus.write {σ κ : Type} (write_sink : κ → Int → κ)
    (bus : Nat) (name : String) (val : Int) (b : Inner σ κ) : WriteOutcome σ κ :=
  match b.pending_readers with
  | (key, _cell) :: rest =>
    WriteOutcome.delivered key val { b with pending_readers := rest }
  | [] =>
    match b.sinks with
    | k :: krest => WriteOutcome.toSink 0 { b with sinks := write_sink k val :: krest }
    | [] =>
      WriteOutcome.suspended (SleepToken.XBusWrite bus)
        { b with pending_writers := b.pending_writers ++ [(name, val)] }

/-- `XBus::can_read` (xbus.rs lines 138-141). -/
def XBus.can_read {σ κ : Type} (can_read_src : σ → Bool) (b : Inner σ κ) : Bool :=
  !b.pending_writers.isEmpty || b.sources.any can_read_src

/-- A `SleepMessage` (scheduler.rs line 34) without the wakeup sender, which is
modelled by the woken-name lists the scheduler functions return. -/
def SleepMessage : Type := String × SleepToken

/-- Scheduler state (scheduler.rs lines 36-41). The `sleepers` HashMap is an
association list in iteration order. -/
structure Scheduler where
  time : Int
  controller_count : Nat
  sleepers : List (String × SleepToken)
deriving DecidableEq

/-- `Scheduler::new` (scheduler.rs lines 76-86): builds the state with
`time = 0` and an empty sleeper registry. The channel it also creates is
modelled by the explicit `posts` lists fed to `await_sleepers`. -/
def Scheduler.new (controller_count : Nat) : Scheduler :=
  { time := 0, controller_count := controller_count, sleepers := [] }

/-- The rebasing of received tokens in `await_sleepers` (scheduler.rs lines
102-105): a `Time(t)` post becomes `Time(self.time + t)`; others unchanged. -/
def rebase_token (time : Int) : SleepToken → SleepToken
| SleepToken.Time t => SleepToken.Time (time + t)
| tok => tok

/-- `HashMap::insert` on the sleeper registry: replace the entry with this key
in place, or append a fresh entry. -/
def insertSleeper (name : String) (tok : SleepToken)
    (sleepers : List (String × SleepToken)) : List (String × SleepToken) :=
  if sleepers.any (fun e => e.1 = name) then
    sleepers.map (fun e => if e.1 = name then (name, tok) else e)
  else
    sleepers ++ [(name, tok)]

/-- `Scheduler::await_sleepers` (scheduler.rs lines 90-111): receive the given
posts in order, rebasing `Time` tokens against the current `time` and
installing each in the registry. -/
def Scheduler.await_sleepers (s : Scheduler) (posts : List SleepMessage) : Scheduler :=
  posts.foldl
    (fun sch post =>
      { sch with sleepers := insertSleeper post.1 (rebase_token sch.time post.2) sch.sleepers })
    s

/-- The bus methods consulted by the scheduler's runnability check
(scheduler.rs lines 137-142), abstracted over the bus heap: `can_read`,
`is_read_pending`, `is_write_pending` per bus id. -/
structure BusEnv where
  can_read : Nat → Bool
  is_read_pending : Nat → String → Bool
  is_write_pending : Nat → String → Bool

/-- The `can_run` match of `Scheduler::advance` (scheduler.rs lines 137-142). -/
def canRun (env : BusEnv) (time : Int) (name : String) : SleepToken → Bool
| SleepToken.Time t => t ≤ time
| SleepToken.XBusSleep bus => env.can_read bus
| SleepToken.XBusRead bus => !env.is_read_pending bus name
| SleepToken.XBusWrite bus => !env.is_write_pending bus name

/-- One pass of the wake loop of `Scheduler::advance` (scheduler.rs lines
133-156): wake every runnable sleeper (sending `true` on its channel), then
`await_sleepers(run_count)`. A woken controller's next post is given by the
behavior function `beh`; its registry entry is overwritten on receipt. Returns
the scheduler after the awaits and the names woken, in iteration order. -/
def wake_iteration (env : BusEnv) (beh : String → SleepToken) (s : Scheduler) :
    Scheduler × List String :=
  let woken := (s.sleepers.filter (fun e => canRun env s.time e.1 e.2)).map (fun e => e.1)
  let posts := woken.map (fun n => (n, beh n))
  (s.await_sleepers posts, woken)

/-- The wake loop of `Scheduler::advance`, run with `fuel` iterations at most:
repeat `wake_iteration` until an iteration wakes zero sleepers. Returns the
final scheduler, all wake events in order, and whether the fixed point (an
iteration waking zero sleepers) was reached within the fuel. -/
def wake_loop (env : BusEnv) (beh : String → SleepToken) :
    Nat → Scheduler → Scheduler × List String × Bool
| 0, s => (s, [], false)
| fuel + 1, s =>
  let step := wake_iteration env beh s
  if step.2.isEmpty then (step.1, [], true)
  else
    let rest := wake_loop env beh fuel step.1
    (rest.1, step.2 ++ rest.2.1, rest.2.2)

/-- The deadlock diagnostic of `Scheduler::advance` (scheduler.rs lines
161-166): the names of registry entries whose token `is_blocking`. -/
def blockers_of (sleepers : List (String × SleepToken)) : List String :=
  (sleepers.filter (fun e => is_blocking e.2)).map (fun e => e.1)

/-- Result of one `Scheduler::advance` call. `blockers` nonempty models the
panicking abort of the run naming the stuck controllers. -/
structure AdvanceResult where
  scheduler : Scheduler
  wake_events : List String
  reached_fixed_point : Bool
  blockers : List String
deriving DecidableEq

/-- `Scheduler::advance` (scheduler.rs lines 121-175): on the first call
(`time == 0`) first await the initial posts of all controllers; increment
`time`; run the wake loop; then compute the deadlock blockers. -/
def Scheduler.advance (env : BusEnv) (beh : String → SleepToken) (fuel : Nat)
    (initial_posts : List SleepMessage) (s : Scheduler) : AdvanceResult :=
  let s0 := if s.time = 0 then s.await_sleepers initial_posts else s
  let s1 : Scheduler := { s0 with time := s0.time + 1 }
  let r := wake_loop env beh fuel s1
  { scheduler := r.1
    wake_events := r.2.1
    reached_fixed_point := r.2.2
    blockers := blockers_of r.1.sleepers }

/-- Effects the scheduler performs on worker threads: a send on a wakeup
channel, or a `join` of the worker's thread. -/
inductive SchedEffect
| wakeup (name : String) (keep_going : Bool)
| join (name : String)
deriving DecidableEq

/-- `Scheduler::end` (scheduler.rs lines 179-187; `end` is a Lean keyword):
set `time` to -1 and send `false` on every sleeper's wakeup channel. The
returned effect list is everything the function does to worker threads. -/
def Scheduler.end_run (s : Scheduler) : Scheduler × List SchedEffect :=
  ({ s with time := -1 }, s.sleepers.map (fun e => SchedEffect.wakeup e.1 false))

/-! ## Components: expander (components/expander.rs) -/

/-- The `Expander` struct: three optional simple pins, each an `AtomicI32`
modelled by its contents. -/
structure Expander where
  p0 : Option Int
  p1 : Option Int
  p2 : Option Int
deriving DecidableEq

/-- `TSource for Expander::read` (expander.rs lines 42-51). -/
def Expander.read (e : Expander) : Int :=
  let to_bit : Int → Int := fun v => if v ≥ 50 then 1 else 0
  100 * (e.p2.map to_bit).getD 0 + 10 * (e.p1.map to_bit).getD 0 + (e.p0.map to_bit).getD 0

/-- `TSource for Expander::can_read` (expander.rs lines 38-40). -/
def Expander.can_read (_ : Expander) : Bool := true

/-- `TSink for Expander::write` (expander.rs lines 54-65). -/
def Expander.write (e : Expander) (val : Int) : Expander :=
  let abs_val := |val|
  { p2 := e.p2.map (fun _ => if abs_val ≥ 100 then 100 else 0)
    p1 := e.p1.map (fun _ => if abs_val % 100 ≥ 10 then 100 else 0)
    p0 := e.p0.map (fun _ => if abs_val % 10 ≥ 1 then 100 else 0) }

/-- Writing then reading back an expander-backed XBus. The bus built by
`expander::new` has the expander as its only sink and only source, with both
endpoints sharing the pin state; with no pending readers the bus write
dispatches to `TSink::write` (the `toSink` case of `XBus.write`), and with no
pending writers the subsequent bus read dispatches to `TSource::read` of the
same expander (the `fromSource` case of `XBus.read`, as `Expander.can_read` is
constantly true). -/
def expanderBusRoundtrip (e : Expander) (v : Int) : Int :=
  (Expander.write e v).read

/-- Fuel-driven digit recursion for the spec-side projection. -/
def nonzeroDigitsAux : Nat → Nat → Nat
| 0, _ => 0
| fuel + 1, n =>
  if n = 0 then 0
  else 10 * nonzeroDigitsAux fuel (n / 10) + (if n % 10 = 0 then 0 else 1)

/-- Modelled from the spec: the "nonzero digit" projection the spec's
round-trip sentence describes — each decimal digit of `v` becomes 1 if nonzero
and 0 otherwise, the sign of `v` ignored. -/
def specNonzeroDigitProjection (v : Int) : Int :=
  (nonzeroDigitsAux v.natAbs v.natAbs : Nat)

/-! ## Components: RAM/ROM (components/memory.rs) -/

/-- Rust's `%` on `i32` (remainder truncated toward zero), for a positive
modulus: for a nonnegative dividend it agrees with the Euclidean `%`, for a
negative dividend it is the negated remainder of the negation. -/
def rustRem (a b : Int) : Int :=
  if 0 ≤ a then a % b else -((-a) % b)

/-- `adjust_index` (memory.rs lines 23-26): truncated `index % 14`, shifted by
14 when negative, cast to `usize`. -/
def adjust_index (index : Int) : Nat :=
  let modded := rustRem index 14
  (if modded < 0 then modded + 14 else modded).toNat

/-- `MemInner` (memory.rs lines 18-21): 14 cells and two pointers. The array
is modelled as a total function; `adjust_index` keeps every pointer below 14
(proved below). -/
structure MemInner where
  contents : Nat → Int
  pointers : Fin 2 → Nat

/-- `TSource for DataPin::read` (memory.rs lines 33-41): read the cell at the
pointer, then advance the pointer. -/
def DataPin.read (pin : Fin 2) (m : MemInner) : Int × MemInner :=
  let current_index := m.pointers pin
  let result := m.contents current_index
  let new_index := adjust_index ((current_index : Int) + 1)
  (result, { m with pointers := Function.update m.pointers pin new_index })

/-- `TSink for DataPin::write` (memory.rs lines 45-51): write the cell at the
pointer, then advance the pointer. -/
def DataPin.write (pin : Fin 2) (val : Int) (m : MemInner) : MemInner :=
  let current_index := m.pointers pin
  { contents := Function.update m.contents current_index val
    pointers := Function.update m.pointers pin (adjust_index ((current_index : Int) + 1)) }

/-- `TSource for AddrPin::read` (memory.rs lines 59-61). -/
def AddrPin.read (pin : Fin 2) (m : MemInner) : Int :=
  (m.pointers pin : Int)

/-- `TSink for AddrPin::write` (memory.rs lines 64-67). -/
def AddrPin.write (pin : Fin 2) (val : Int) (m : MemInner) : MemInner :=
  { m with pointers := Function.update m.pointers pin (adjust_index val) }

/-- `ram()` (memory.rs lines 151-192): contents all zero, both pointers 0. -/
def ram : MemInner :=
  { contents := fun _ => 0, pointers := fun _ => 0 }

/-! ## Components: input sources (components/inputsource.rs) -/

/-- `InputSourceType` (inputsource.rs lines 6-9). -/
inductive InputSourceType
| Blocking
| NonBlocking
deriving DecidableEq

/-- `InputSource` (inputsource.rs lines 13-16); the `VecDeque` is a list with
its front at the head. -/
structure InputSource where
  source_type : InputSourceType
  queue : List Int
deriving DecidableEq

/-- `TSource for InputSource::can_read` (inputsource.rs lines 51-56). -/
def InputSource.can_read (s : InputSource) : Bool :=
  match s.source_type with
  | InputSourceType.Blocking => !s.queue.isEmpty
  | InputSourceType.NonBlocking => true

/-- `TSource for InputSource::read` (inputsource.rs lines 58-64). The
`expect` panic of a blocking read on an empty queue is the `none` case. -/
def InputSource.read (s : InputSource) : Option (Int × InputSource) :=
  match s.source_type, s.queue with
  | InputSourceType.Blocking, [] => none
  | InputSourceType.Blocking, v :: rest => some (v, { s with queue := rest })
  | InputSourceType.NonBlocking, [] => some (-999, s)
  | InputSourceType.NonBlocking, v :: rest => some (v, { s with queue := rest })

/-- `InputSource::read` as the total function the bus dispatch uses. The
`TSource` contract only calls `read` when `can_read()` is true, so the
default branch (the blocking-empty panic) is unreachable from `XBus.read`. -/
def InputSource.read_total (s : InputSource) : Int × InputSource :=
  (s.read).getD (0, s)

/-! ## Helper lemmas -/

theorem scanSources_eq_none {σ : Type} (cr : σ → Bool) (rf : σ → Int × σ) :
    ∀ l : List σ, (∀ s ∈ l, cr s = false) → scanSources cr rf l = none := by
  intro l
  induction l with
  | nil => intro _; rfl
  | cons s rest ih =>
    intro h
    have hs : cr s = false := h s (by simp)
    have hrest : scanSources cr rf rest = none := ih (fun x hx => h x (by simp [hx]))
    simp [scanSources, hs, hrest]

theorem scanSources_first {σ : Type} (cr : σ → Bool) (rf : σ → Int × σ) :
    ∀ (l : List σ) (i : Nat) (hi : i < l.length),
      (∀ j (hj : j < l.length), j < i → cr (l.get ⟨j, hj⟩) = false) →
      cr (l.get ⟨i, hi⟩) = true →
      scanSources cr rf l
        = some (i, (rf (l.get ⟨i, hi⟩)).1, l.set i (rf (l.get ⟨i, hi⟩)).2) := by
  intro l
  induction l with
  | nil => intro i hi; exact absurd hi (by simp)
  | cons s rest ih =>
    intro i hi hprev hcur
    cases i with
    | zero =>
      simp only [List.get] at hcur
      simp [scanSources, hcur, List.set]
    | succ i2 =>
      have hs : cr s = false := hprev 0 (by simp) (by omega)
      have hrec := ih i2 (by simpa using hi)
        (fun j hj hlt => hprev (j + 1) (by simpa using hj) (by omega))
        (by simpa using hcur)
      simp [scanSources, hs, hrec, List.set]

theorem blockers_of_ne_nil_iff (l : List (String × SleepToken)) :
    blockers_of l ≠ [] ↔ ∃ e ∈ l, is_blocking e.2 = true := by
  constructor
  · intro h
    by_contra hno
    push_neg at hno
    exact h (by
      simp only [blockers_of, List.map_eq_nil_iff, List.filter_eq_nil_iff]
      intro e he
      simp [hno e he])
  · rintro ⟨e, he, hb⟩ hnil
    have : e ∈ l.filter (fun e => is_blocking e.2) := List.mem_filter.mpr ⟨he, hb⟩
    have : e.1 ∈ blockers_of l := List.mem_map_of_mem _ this
    simp [hnil] at this

theorem await_sleepers_fresh :
    ∀ (posts : List SleepMessage) (s : Scheduler),
      (∀ p ∈ posts, ∀ e ∈ s.sleepers, e.1 ≠ p.1) →
      (posts.map Prod.fst).Nodup →
      (s.await_sleepers posts).sleepers
          = s.sleepers ++ posts.map (fun p => (p.1, rebase_token s.time p.2))
      ∧ (s.await_sleepers posts).time = s.time := by
  intro posts
  induction posts with
  | nil => intro s _ _; exact ⟨by simp [Scheduler.await_sleepers], rfl⟩
  | cons p ps ih =>
    intro s hfresh hnodup
    have hnotin : (s.sleepers.any (fun e => e.1 = p.1)) = false := by
      simp only [List.any_eq_false, decide_eq_true_eq]
      exact fun e he => hfresh p (by simp) e he
    have hstep : s.await_sleepers (p :: ps)
        = Scheduler.await_sleepers
            { s with sleepers := s.sleepers ++ [(p.1, rebase_token s.time p.2)] } ps := by
      simp [Scheduler.await_sleepers, insertSleeper, hnotin]
    have hnodup2 : (ps.map Prod.fst).Nodup := (List.nodup_cons.mp hnodup).2
    have hnot : p.1 ∉ ps.map Prod.fst := (List.nodup_cons.mp hnodup).1
    have hfresh2 : ∀ q ∈ ps,
        ∀ e ∈ (s.sleepers ++ [(p.1, rebase_token s.time p.2)]), e.1 ≠ q.1 := by
      intro q hq e he
      rcases List.mem_append.mp he with h1 | h2
      · exact hfresh q (by simp [hq]) e h1
      · simp only [List.mem_singleton] at h2
        subst h2
        intro hcontra
        apply hnot
        rw [hcontra]
        exact List.mem_map_of_mem Prod.fst hq
    have hrec := ih { s with sleepers := s.sleepers ++ [(p.1, rebase_token s.time p.2)] }
      hfresh2 hnodup2
    refine ⟨?_, by rw [hstep]; exact hrec.2⟩
    rw [hstep, hrec.1]
    simp [List.append_assoc]

theorem adjust_index_lt (i : Int) : adjust_index i < 14 := by
  show (if rustRem i 14 < 0 then rustRem i 14 + 14 else rustRem i 14).toNat < 14
  unfold rustRem
  split_ifs <;> omega

theorem adjust_index_cast (i : Int) : ((adjust_index i : Nat) : Int) = i % 14 := by
  show ((if rustRem i 14 < 0 then rustRem i 14 + 14 else rustRem i 14).toNat : Int) = i % 14
  unfold rustRem
  split_ifs <;> omega

/-! ## Claim theorems -/

/-- C1: `XBus::write(v)`: with a nonempty `pending_readers`, `v` is delivered
to exactly one pending reader (the head of the map's iteration order), that
entry is removed, and the write returns immediately; otherwise with at least
one connected sink, `v` goes to the first connected sink and the write returns
immediately; otherwise the caller is registered in `pending_writers` under its
controller name together with `v`, posts `XBusWrite` and suspends. -/
theorem xbus_write_resolution {σ κ : Type} (write_sink : κ → Int → κ)
    (bus : Nat) (name : String) (val : Int) (b : Inner σ κ) :
    (∀ r c rest, b.pending_readers = (r, c) :: rest →
      XBus.write write_sink bus name val b
        = WriteOutcome.delivered r val { b with pending_readers := rest })
    ∧ (∀ k krest, b.pending_readers = [] → b.sinks = k :: krest →
      XBus.write write_sink bus name val b
        = WriteOutcome.toSink 0 { b with sinks := write_sink k val :: krest })
    ∧ (b.pending_readers = [] → b.sinks = [] →
      XBus.write write_sink bus name val b
        = WriteOutcome.suspended (SleepToken.XBusWrite bus)
            { b with pending_writers := b.pending_writers ++ [(name, val)] }) := by
  obtain ⟨srcs, sks, prs, pws⟩ := b
  refine ⟨?_, ?_, ?_⟩
  · rintro r c rest rfl
    rfl
  · rintro k krest rfl rfl
    rfl
  · rintro rfl rfl
    rfl

theorem xbus_write_resolution_witness :
    XBus.write (fun (u : Unit) _ => u) 0 "w" 5
        (⟨[], [], [("p", 0)], []⟩ : Inner Unit Unit)
      = WriteOutcome.delivered "p" 5 ⟨[], [], [], []⟩
    ∧ XBus.write (fun (u : Unit) _ => u) 0 "w" 5
        (⟨[], [()], [], []⟩ : Inner Unit Unit)
      = WriteOutcome.toSink 0 ⟨[], [()], [], []⟩
    ∧ XBus.write (fun (u : Unit) _ => u) 0 "w" 5
        (⟨[], [], [], []⟩ : Inner Unit Unit)
      = WriteOutcome.suspended (SleepToken.XBusWrite 0) ⟨[], [], [], [("w", 5)]⟩ :=
  ⟨(xbus_write_resolution (fun (u : Unit) _ => u) 0 "w" 5 _).1 "p" 0 [] rfl,
   (xbus_write_resolution (fun (u : Unit) _ => u) 0 "w" 5 _).2.1 () [] rfl rfl,
   (xbus_write_resolution (fun (u : Unit) _ => u) 0 "w" 5 _).2.2 rfl rfl⟩

/-- C2: `XBus::read()`: with a nonempty `pending_writers`, exactly one pending
writer (the head of the map's iteration order) is removed and its value
returned immediately; otherwise the sources are scanned in registration order
and the first whose `can_read()` is true is read; otherwise the caller is
registered in `pending_readers` under its name with a fresh (zero) cell, posts
`XBusRead` and suspends, and the value a later write stores in that cell is
exactly what the resumed read returns. -/
theorem xbus_read_resolution {σ κ : Type} (cr : σ → Bool) (rf : σ → Int × σ)
    (bus : Nat) (name : String) (b : Inner σ κ) :
    (∀ w v rest, b.pending_writers = (w, v) :: rest →
      XBus.read cr rf bus name b
        = ReadOutcome.fromWriter w v { b with pending_writers := rest })
    ∧ (∀ i (hi : i < b.sources.length), b.pending_writers = [] →
        (∀ j (hj : j < b.sources.length), j < i → cr (b.sources.get ⟨j, hj⟩) = false) →
        cr (b.sources.get ⟨i, hi⟩) = true →
        XBus.read cr rf bus name b
          = ReadOutcome.fromSource i (rf (b.sources.get ⟨i, hi⟩)).1
              { b with sources := b.sources.set i (rf (b.sources.get ⟨i, hi⟩)).2 })
    ∧ (b.pending_writers = [] → (∀ s ∈ b.sources, cr s = false) →
        XBus.read cr rf bus name b
          = ReadOutcome.suspended (SleepToken.XBusRead bus)
              { b with pending_readers := b.pending_readers ++ [(name, 0)] })
    ∧ (∀ (write_sink : κ → Int → κ) (bus2 : Nat) (wname : String) (val : Int),
        b.pending_writers = [] → b.pending_readers = [] → b.sinks = [] →
        (∀ s ∈ b.sources, cr s = false) →
        XBus.write write_sink bus2 wname val
            { b with pending_readers := b.pending_readers ++ [(name, 0)] }
          = WriteOutcome.delivered name val
              { b with pending_readers := [] }) := by
  obtain ⟨srcs, sks, prs, pws⟩ := b
  refine ⟨?_, ?_, ?_, ?_⟩
  · rintro w v rest rfl
    rfl
  · rintro i hi rfl hprev hcur
    have hscan := scanSources_first cr rf srcs i hi hprev hcur
    simp [XBus.read, hscan]
  · rintro rfl hall
    have hscan := scanSources_eq_none cr rf srcs hall
    simp [XBus.read, hscan]
  · rintro write_sink bus2 wname val rfl rfl rfl _
    rfl

theorem xbus_read_resolution_witness :
    XBus.read (fun b => b) (fun b => (3, b)) 0 "r"
        (⟨[], [], [], [("x", 9)]⟩ : Inner Bool Unit)
      = ReadOutcome.fromWriter "x" 9 ⟨[], [], [], []⟩
    ∧ XBus.read (fun b => b) (fun b => (3, b)) 0 "r"
        (⟨[false, true], [], [], []⟩ : Inner Bool Unit)
      = ReadOutcome.fromSource 1 3 ⟨[false, true], [], [], []⟩
    ∧ XBus.read (fun b => b) (fun b => (3, b)) 0 "r"
        (⟨[false], [], [], []⟩ : Inner Bool Unit)
      = ReadOutcome.suspended (SleepToken.XBusRead 0) ⟨[false], [], [("r", 0)], []⟩
    ∧ XBus.write (fun (u : Unit) _ => u) 0 "w" 42
        (⟨[false], [], [("r", 0)], []⟩ : Inner Bool Unit)
      = WriteOutcome.delivered "r" 42 ⟨[false], [], [], []⟩ := by
  have h := xbus_read_resolution (σ := Bool) (κ := Unit) (fun b => b) (fun b => (3, b)) 0 "r"
  refine ⟨(h _).1 "x" 9 [] rfl, ?_, ?_, ?_⟩
  · have := (h ⟨[false, true], [], [], []⟩).2.1 1 (by decide) rfl
      (by decide) (by decide)
    simpa using this
  · have := (h ⟨[false], [], [], []⟩).2.2.1 rfl (by decide)
    simpa using this
  · have := (h ⟨[false], [], [], []⟩).2.2.2 (fun (u : Unit) _ => u) 0 "w" 42
      rfl rfl rfl (by decide)
    simpa using this

/-- C10: a nonblocking `InputSource` always reports `can_read() == true`;
reading it with an empty queue returns the sentinel -999 (and leaves the
source unchanged); a blocking `InputSource` reports `can_read()` true exactly
when its queue is nonempty; and an `XBus::read` on a bus whose only peripheral
is a nonblocking `InputSource` never suspends. -/
theorem nonblocking_inputsource_never_suspends (s : InputSource) (q : List Int)
    (prs pws : List (String × Int)) (bus : Nat) (name : String) :
    (s.source_type = InputSourceType.NonBlocking → s.can_read = true)
    ∧ (s.source_type = InputSourceType.NonBlocking → s.queue = [] →
        s.read = some (-999, s))
    ∧ (s.source_type = InputSourceType.Blocking →
        (s.can_read = true ↔ s.queue ≠ []))
    ∧ (XBus.read InputSource.can_read InputSource.read_total bus name
        (⟨[⟨InputSourceType.NonBlocking, q⟩], [], prs, pws⟩ : Inner InputSource Unit)).suspends
        = false := by
  obtain ⟨ty, qu⟩ := s
  refine ⟨?_, ?_, ?_, ?_⟩
  · rintro rfl
    rfl
  · rintro rfl rfl
    rfl
  · rintro rfl
    cases qu <;> simp [InputSource.can_read]
  · cases pws with
    | nil => rfl
    | cons p rest =>
      obtain ⟨w, v⟩ := p
      rfl

theorem nonblocking_inputsource_never_suspends_witness :
    (InputSource.mk InputSourceType.NonBlocking []).can_read = true
    ∧ (InputSource.mk InputSourceType.NonBlocking []).read
        = some (-999, InputSource.mk InputSourceType.NonBlocking [])
    ∧ ((InputSource.mk InputSourceType.Blocking [7]).can_read = true ↔ ([7] : List Int) ≠ [])
    ∧ (XBus.read InputSource.can_read InputSource.read_total 0 "r"
        (⟨[⟨InputSourceType.NonBlocking, []⟩], [], [], []⟩ : Inner InputSource Unit)).suspends
        = false := by
  have h := nonblocking_inputsource_never_suspends
    (InputSource.mk InputSourceType.NonBlocking []) [] [] [] 0 "r"
  have h2 := nonblocking_inputsource_never_suspends
    (InputSource.mk InputSourceType.Blocking [7]) [] [] [] 0 "r"
  exact ⟨h.1 rfl, h.2.1 rfl rfl, by simpa using h2.2.2.1 rfl, h.2.2.2⟩

/-- C3: when the wake loop of `advance()` reaches its fixed point, the run is
aborted (nonempty `blockers`, i.e. the panicking abort) if and only if at least one
registered sleeper holds a blocking token; the diagnostic names exactly the
controllers with blocking tokens; and exactly `XBusRead` and `XBusWrite` are
classified as blocking while `Time` and `XBusSleep` are not. -/
theorem deadlock_iff_blocking_sleeper (env : BusEnv) (beh : String → SleepToken)
    (fuel : Nat) (posts : List SleepMessage) (s : Scheduler)
    (hfix : (Scheduler.advance env beh fuel posts s).reached_fixed_point = true) :
    ((Scheduler.advance env beh fuel posts s).blockers ≠ []
      ↔ ∃ e ∈ (Scheduler.advance env beh fuel posts s).scheduler.sleepers,
          is_blocking e.2 = true)
    ∧ (Scheduler.advance env beh fuel posts s).blockers
        = blockers_of (Scheduler.advance env beh fuel posts s).scheduler.sleepers
    ∧ (∀ bus, is_blocking (SleepToken.XBusRead bus) = true)
    ∧ (∀ bus, is_blocking (SleepToken.XBusWrite bus) = true)
    ∧ (∀ t, is_blocking (SleepToken.Time t) = false)
    ∧ (∀ bus, is_blocking (SleepToken.XBusSleep bus) = false) :=
  ⟨blockers_of_ne_nil_iff _, rfl, fun _ => rfl, fun _ => rfl, fun _ => rfl, fun _ => rfl⟩

theorem deadlock_iff_blocking_sleeper_witness :
    ((Scheduler.advance ⟨fun _ => false, fun _ _ => true, fun _ _ => true⟩
        (fun _ => SleepToken.Time 0) 1 []
        ⟨1, 1, [("a", SleepToken.XBusRead 0)]⟩).reached_fixed_point = true)
    ∧ (Scheduler.advance ⟨fun _ => false, fun _ _ => true, fun _ _ => true⟩
        (fun _ => SleepToken.Time 0) 1 []
        ⟨1, 1, [("a", SleepToken.XBusRead 0)]⟩).blockers ≠ [] :=
  ⟨by decide,
   (deadlock_iff_blocking_sleeper ⟨fun _ => false, fun _ _ => true, fun _ _ => true⟩
      (fun _ => SleepToken.Time 0) 1 [] ⟨1, 1, [("a", SleepToken.XBusRead 0)]⟩
      (by decide)).1.mpr (by decide)⟩

/-- C4 counterexample: the waiter consumed by `read()` / chosen by `write()`
is the head of the pending `HashMap`'s iteration order, not the smallest name
in a total order: with the same pending map {a, b} presented in the two
possible iteration orders, different waiters are chosen, and in one of them
the chosen waiter "b" is not the smallest pending name ("a" < "b"). -/
theorem pending_waiter_choice_not_deterministic :
    (XBus.read (fun _ : Unit => false) (fun u => (0, u)) 0 "r"
        (⟨[], [], [], [("b", 2), ("a", 1)]⟩ : Inner Unit Unit)).writerTaken = some ("b", 2)
    ∧ (XBus.read (fun _ : Unit => false) (fun u => (0, u)) 0 "r"
        (⟨[], [], [], [("a", 1), ("b", 2)]⟩ : Inner Unit Unit)).writerTaken = some ("a", 1)
    ∧ (XBus.write (fun (u : Unit) _ => u) 0 "w" 7
        (⟨[], [], [("b", 0), ("a", 0)], []⟩ : Inner Unit Unit)).readerChosen = some "b"
    ∧ (XBus.write (fun (u : Unit) _ => u) 0 "w" 7
        (⟨[], [], [("a", 0), ("b", 0)], []⟩ : Inner Unit Unit)).readerChosen = some "a"
    ∧ [("b", (2 : Int)), ("a", 1)].Perm [("a", 1), ("b", 2)]
    ∧ ("a" : String) < "b" := by
  refine ⟨by decide, by decide, by decide, by decide, by decide, ?_⟩
  rw [String.lt_iff_toList_lt]
  decide

/-- C4 amended: `read()` consumes and `write()` delivers to exactly the first
entry of the pending map's iteration order (Rust `HashMap::iter().next()`),
which is not a documented-stable or name-based tie-break. -/
theorem pending_waiter_choice_is_iteration_head {σ κ : Type} (cr : σ → Bool)
    (rf : σ → Int × σ) (wf : κ → Int → κ) (bus : Nat) (name : String) (val : Int)
    (b : Inner σ κ) :
    (∀ hd tl, b.pending_writers = hd :: tl →
      (XBus.read cr rf bus name b).writerTaken = some hd)
    ∧ (∀ hd tl, b.pending_readers = hd :: tl →
      (XBus.write wf bus name val b).readerChosen = some hd.1) := by
  obtain ⟨srcs, sks, prs, pws⟩ := b
  constructor
  · rintro ⟨w, v⟩ tl rfl
    rfl
  · rintro ⟨r, c⟩ tl rfl
    rfl

theorem pending_waiter_choice_is_iteration_head_witness :
    (XBus.read (fun _ : Unit => false) (fun u => (0, u)) 0 "r"
        (⟨[], [], [], [("b", 2), ("a", 1)]⟩ : Inner Unit Unit)).writerTaken = some ("b", 2)
    ∧ (XBus.write (fun (u : Unit) _ => u) 0 "w" 7
        (⟨[], [], [("b", 0), ("a", 0)], []⟩ : Inner Unit Unit)).readerChosen = some "b" :=
  ⟨(pending_waiter_choice_is_iteration_head (fun _ : Unit => false) (fun u => (0, u))
      (fun (u : Unit) _ => u) 0 "r" 7 ⟨[], [], [], [("b", 2), ("a", 1)]⟩).1
      ("b", 2) [("a", 1)] rfl,
   (pending_waiter_choice_is_iteration_head (fun _ : Unit => false) (fun u => (0, u))
      (fun (u : Unit) _ => u) 0 "w" 7 ⟨[], [], [("b", 0), ("a", 0)], []⟩).2
      ("b", 0) [("a", 0)] rfl⟩

/-- C5 counterexample: a controller whose body immediately calls `sleep(0)` is
woken twice within a single `advance()` call: the `Time(0)` post arriving
during the wake loop is rebased against the already-incremented `time`, so its
wake condition holds again in the very next loop iteration. It does not park
until the next `advance()`. -/
theorem sleep_zero_rewoken_within_same_advance :
    (Scheduler.advance ⟨fun _ => false, fun _ _ => false, fun _ _ => false⟩
        (fun _ => SleepToken.Time 0) 2 [("a", SleepToken.Time 0)]
        (Scheduler.new 1)).wake_events = ["a", "a"] := by
  decide

/-- C5 amended: a `Time(t)` post is rebased on receipt to the absolute tick
`time + t`; a sleeper with token `Time(t)` is runnable exactly when
`time >= t`; and the startup `sleep(0)` (posted before the first `advance()`
and rebased at `time = 0`) wakes exactly once during the first `advance()`
when the controller's next sleep is `sleep(1)`. A `sleep(0)` posted during a
tick, however, is re-woken within the same `advance()` call. -/
theorem time_token_rebase_and_runnable :
    (∀ (s : Scheduler) (name : String) (t : Int),
      (s.await_sleepers [(name, SleepToken.Time t)]).sleepers
        = insertSleeper name (SleepToken.Time (s.time + t)) s.sleepers)
    ∧ (∀ (env : BusEnv) (time : Int) (name : String) (t : Int),
      canRun env time name (SleepToken.Time t) = true ↔ t ≤ time)
    ∧ (Scheduler.advance ⟨fun _ => false, fun _ _ => false, fun _ _ => false⟩
        (fun _ => SleepToken.Time 1) 2 [("a", SleepToken.Time 0)]
        (Scheduler.new 1)).wake_events = ["a"] := by
  refine ⟨fun s name t => rfl, fun env time name t => ?_, by decide⟩
  simp [canRun]

theorem time_token_rebase_and_runnable_witness :
    ((Scheduler.new 3).await_sleepers [("a", SleepToken.Time 2)]).sleepers
        = [("a", SleepToken.Time 2)]
    ∧ canRun ⟨fun _ => false, fun _ _ => false, fun _ _ => false⟩ 5 "a"
        (SleepToken.Time 3) = true :=
  ⟨time_token_rebase_and_runnable.1 (Scheduler.new 3) "a" 2,
   (time_token_rebase_and_runnable.2.1 ⟨fun _ => false, fun _ _ => false, fun _ _ => false⟩
      5 "a" 3).mpr (by decide)⟩

/-- C6 counterexample: `Scheduler::new` returns immediately with an empty
sleeper registry; for `N = 1` controllers the registry does not hold `N`
entries when construction returns. -/
theorem scheduler_new_registry_empty :
    (Scheduler.new 1).sleepers.length = 0
    ∧ (Scheduler.new 1).time = 0
    ∧ (Scheduler.new 1).controller_count = 1
    ∧ (Scheduler.new 1).sleepers.length ≠ 1 := by
  decide

/-- C6 amended: construction returns immediately with `time == 0` and an empty
registry; the blocking until all `N` controllers have posted happens at the
start of the first `advance()` (the `time == 0` branch), after which — for `N`
posts with distinct controller names — the registry holds exactly the `N`
posted entries with `Time` tokens rebased against `time = 0`, and `time` is
still 0 when that initial await finishes. -/
theorem first_advance_registers_all_sleepers (posts : List SleepMessage)
    (hnodup : (posts.map Prod.fst).Nodup) :
    ((Scheduler.new posts.length).await_sleepers posts).sleepers
        = posts.map (fun p => (p.1, rebase_token 0 p.2))
    ∧ ((Scheduler.new posts.length).await_sleepers posts).sleepers.length = posts.length
    ∧ ((Scheduler.new posts.length).await_sleepers posts).time = 0
    ∧ (Scheduler.new posts.length).sleepers = [] := by
  have h := await_sleepers_fresh posts (Scheduler.new posts.length)
    (by intro p _ e he; simp [Scheduler.new] at he) hnodup
  have h1 : ((Scheduler.new posts.length).await_sleepers posts).sleepers
      = posts.map (fun p => (p.1, rebase_token 0 p.2)) := by
    simpa [Scheduler.new] using h.1
  exact ⟨h1, by simp [h1], h.2, rfl⟩

theorem first_advance_registers_all_sleepers_witness :
    (["a", "b"] : List String).Nodup
    ∧ ((Scheduler.new 2).await_sleepers
        [("a", SleepToken.Time 0), ("b", SleepToken.Time 0)]).sleepers
        = [("a", SleepToken.Time 0), ("b", SleepToken.Time 0)] := by
  have h := first_advance_registers_all_sleepers
    [("a", SleepToken.Time 0), ("b", SleepToken.Time 0)] (by decide)
  exact ⟨by decide, by simpa using h.1⟩

/-- C7 counterexample: `Scheduler::end` sends `false` to the registered
sleeper but performs no thread join: its effect list on a scheduler with the
worker "a" registered contains no `join` effect. (The function's own
documentation says the caller should `join()` the threads.) -/
theorem end_does_not_join_workers :
    (Scheduler.end_run ⟨5, 1, [("a", SleepToken.Time 7)]⟩).2
        = [SchedEffect.wakeup "a" false]
    ∧ SchedEffect.join "a" ∉ (Scheduler.end_run ⟨5, 1, [("a", SleepToken.Time 7)]⟩).2 := by
  decide

/-- C7 amended: `end()` sends the shutdown signal `false` on the wakeup
channel of every registered sleeper regardless of its token kind and sets
`time` to -1, but it does not join the worker threads — joining is left to
the caller. -/
theorem end_signals_all_sleepers_no_join (s : Scheduler) (name : String)
    (hmem : name ∈ s.sleepers.map Prod.fst) :
    SchedEffect.wakeup name false ∈ (Scheduler.end_run s).2
    ∧ (Scheduler.end_run s).1.time = -1
    ∧ (Scheduler.end_run s).2 = s.sleepers.map (fun e => SchedEffect.wakeup e.1 false)
    ∧ ∀ n, SchedEffect.join n ∉ (Scheduler.end_run s).2 := by
  refine ⟨?_, rfl, rfl, ?_⟩
  · obtain ⟨e, he, hfst⟩ := List.mem_map.mp hmem
    have : SchedEffect.wakeup e.1 false ∈ (Scheduler.end_run s).2 :=
      List.mem_map_of_mem _ he
    rwa [hfst] at this
  · intro n hn
    simp only [Scheduler.end_run, List.mem_map] at hn
    obtain ⟨e, _, hcontra⟩ := hn
    exact SchedEffect.noConfusion hcontra

theorem end_signals_all_sleepers_no_join_witness :
    "a" ∈ ([("a", SleepToken.XBusWrite 3)].map Prod.fst)
    ∧ SchedEffect.wakeup "a" false
        ∈ (Scheduler.end_run ⟨0, 1, [("a", SleepToken.XBusWrite 3)]⟩).2
    ∧ (Scheduler.end_run ⟨0, 1, [("a", SleepToken.XBusWrite 3)]⟩).1.time = -1 := by
  have h := end_signals_all_sleepers_no_join ⟨0, 1, [("a", SleepToken.XBusWrite 3)]⟩ "a"
    (by decide)
  exact ⟨by decide, h.1, h.2.1⟩

/-- C8 counterexample: writing 1000 to an expander-backed XBus (all three pins
connected) and reading back yields 100, because the hundreds pin is driven by
`|v| >= 100` rather than by the hundreds digit; the spec's nonzero-digit
projection of 1000 is 1000, not 100. -/
theorem expander_roundtrip_not_digit_projection :
    expanderBusRoundtrip ⟨some 0, some 0, some 0⟩ 1000 = 100
    ∧ specNonzeroDigitProjection 1000 = 1000
    ∧ (100 : Int) ≠ 1000 := by
  decide

/-- C8 amended: for `|v| <= 999` the expander round-trip (write `v`, read
back) yields exactly the nonzero-digit projection of `v` (each of the three
decimal digits becomes 1 if nonzero, 0 otherwise, sign ignored); the bus
dispatches the write to the expander sink and the read to the expander source;
and writing 573 sets the three pins to 100,100,100 with read-back 111. For
`|v| >= 1000` the hundreds pin is driven by `|v| >= 100`, not by the hundreds
digit. -/
theorem expander_roundtrip_digit_projection (a b c v : Int) :
    (|v| ≤ 999 →
      expanderBusRoundtrip ⟨some a, some b, some c⟩ v
        = 100 * (if v.natAbs / 100 % 10 = 0 then 0 else 1)
          + 10 * (if v.natAbs / 10 % 10 = 0 then 0 else 1)
          + (if v.natAbs % 10 = 0 then 0 else 1))
    ∧ (∀ (e : Expander) (bus : Nat) (nm : String),
        XBus.write Expander.write bus nm v (⟨[e], [e], [], []⟩ : Inner Expander Expander)
          = WriteOutcome.toSink 0 ⟨[e], [Expander.write e v], [], []⟩)
    ∧ (∀ (e : Expander) (bus : Nat) (nm : String),
        XBus.read Expander.can_read (fun ex => (Expander.read ex, ex)) bus nm
            (⟨[e], [e], [], []⟩ : Inner Expander Expander)
          = ReadOutcome.fromSource 0 (Expander.read e) ⟨[e], [e], [], []⟩)
    ∧ Expander.write ⟨some 0, some 0, some 0⟩ 573 = ⟨some 100, some 100, some 100⟩
    ∧ expanderBusRoundtrip ⟨some 0, some 0, some 0⟩ 573 = 111
    ∧ specNonzeroDigitProjection 573 = 111 := by
  refine ⟨?_, fun e bus nm => rfl, fun e bus nm => rfl, by decide, by decide, by decide⟩
  intro hv
  have habs : |v| = (v.natAbs : Int) := Int.abs_eq_natAbs v
  rw [habs] at hv
  simp only [expanderBusRoundtrip, Expander.write, Expander.read, Option.map_some',
    Option.getD_some, habs]
  split_ifs <;> omega

theorem expander_roundtrip_digit_projection_witness :
    (|(573 : Int)| ≤ 999)
    ∧ expanderBusRoundtrip ⟨some 0, some 0, some 0⟩ 573
        = 100 * (if (573 : Int).natAbs / 100 % 10 = 0 then 0 else 1)
          + 10 * (if (573 : Int).natAbs / 10 % 10 = 0 then 0 else 1)
          + (if (573 : Int).natAbs % 10 = 0 then 0 else 1) :=
  ⟨by decide, (expander_roundtrip_digit_projection 0 0 0 573).1 (by decide)⟩

/-- C9: on the RAM model, writing `v` through a data pin at pointer `p` (set
via the address pin) and reading back at pointer `p` (after resetting the
pointer) returns `v`; every data-pin read or write advances the corresponding
pointer by one modulo 14; and `adjust_index` is a true (Euclidean) modulo,
mapping every `i32` address — negative ones included — into `0..13`. -/
theorem ram_roundtrip_and_pointer_modulo (m : MemInner) (pin : Fin 2) (p v i : Int) :
    (DataPin.read pin
        (AddrPin.write pin p (DataPin.write pin v (AddrPin.write pin p m)))).1 = v
    ∧ ((DataPin.write pin v m).pointers pin : Int) = ((m.pointers pin : Int) + 1) % 14
    ∧ (((DataPin.read pin m).2.pointers pin : Int) = ((m.pointers pin : Int) + 1) % 14)
    ∧ adjust_index i < 14
    ∧ (adjust_index i : Int) = i % 14 := by
  refine ⟨?_, ?_, ?_, adjust_index_lt i, adjust_index_cast i⟩
  · simp [DataPin.read, DataPin.write, AddrPin.write, Function.update_same]
  · simp [DataPin.write, Function.update_same, adjust_index_cast]
  · simp [DataPin.read, Function.update_same, adjust_index_cast]

end ShenzhenVM
